import Mathlib

/-!
Shallow embedding of `cargo_build.py`, a build-artifact relocation wrapper:
it classifies its command-line arguments, invokes `sh {source_dir}/cargo.sh build`
with the pass-through arguments, and (when a destination token was found)
copies `./{binary_dir}/{filename}` to the destination with `cp -a`.

The embedding mirrors the Python line by line:
  * `binary_dir = "release" if '--release' in args else "debug"` (checked on the
    raw argument list, before any token is removed);
  * `args.index('--rename')` / `args.pop(i)` / `args.pop(i)` becomes
    `extractRename` (first occurrence; the uncaught `IndexError` when the flag
    is the last token becomes `none`);
  * the destination is the first token not starting with `--`
    (`out_path = [arg for arg in args if not arg.startswith('--')]` then
    `args.pop(args.index(out_path[0]))`), modelled by `extractDest`;
  * `subprocess.run` is modelled by recording the command line together with the
    working directory the child process runs in; the Python passes no `cwd`
    argument, so the child inherits the caller's current working directory;
  * `Path(p).absolute()` is modelled by `absolutePath` (prepend the caller's
    cwd when the path is relative) and `Path.name` by `pathName`
    (last path component, with empty and `.` components dropped, as in
    `pathlib.PurePosixPath`);
  * `filename = filename or out_basename` falls back to the basename when
    `filename` is `None` *or the empty string* (Python truthiness);
  * `if out_path:` before the copy is a string truthiness test, so an empty
    destination token skips the copy.
-/

namespace CargoBuild

/-- `arg.startswith('--')`: the token is a flag for classification purposes.
(`String.startsWith` itself does not reduce in the kernel, so the two-dash
test is written out on the character list.) -/
def isFlag (s : String) : Bool :=
  match s.toList with
  | '-' :: '-' :: _ => true
  | _ => false

/-- Models the `--rename` handling of `cargo_build.py`:
`i = args.index('--rename'); args.pop(i); filename = args.pop(i)`.
Scans for the first occurrence of `--rename`; when found, removes it and the
immediately following token (returned as the rename value). When `--rename`
is the last token, the second `pop` raises `IndexError`, which kills the
script: modelled as `none`. When the flag is absent the list is unchanged. -/
def extractRename : List String → Option (Option String × List String)
  | [] => some (none, [])
  | a :: rest =>
    if a = "--rename" then
      match rest with
      | [] => none
      | v :: s => some (some v, s)
    else
      match extractRename rest with
      | none => none
      | some (f, l) => some (f, a :: l)

/-- `[arg for arg in args if not arg.startswith('--')][0]` when it exists:
the first token that does not start with `--`. -/
def firstNonFlag (args : List String) : Option String :=
  (args.filter (fun a => !(isFlag a))).head?

/-- Models the destination extraction of `cargo_build.py`: take the first
token not starting with `--` and remove its first occurrence from the list
(`args.pop(args.index(out_path))`; the first occurrence of that string is
exactly the first non-flag position, since every earlier token starts with
`--` and the chosen token does not). -/
def extractDest (args : List String) : Option String × List String :=
  match firstNonFlag args with
  | none => (none, args)
  | some o => (some o, args.erase o)

/-- The classification result of `cargo_build.py`: `binary_dir` ("debug" or
"release"), the optional rename value `filename`, the optional destination
token `out_path`, and the remaining arguments forwarded to the build. -/
structure Classified where
  binary_dir : String
  filename : Option String
  out_path : Option String
  passthrough : List String
deriving Repr, DecidableEq

/-- The argument classification of `cargo_build.py`, lines 15-35:
`binary_dir` is "release" iff `--release` occurs in the *raw* argument list
(this test runs before any token is removed); then the `--rename` pair is
removed; then the first non-flag token is removed as the destination.
`none` is the uncaught `IndexError` of a trailing `--rename`. -/
def classify (args : List String) : Option Classified :=
  match extractRename args with
  | none => none
  | some (filename, args1) =>
    some ⟨if "--release" ∈ args then "release" else "debug", filename,
          (extractDest args1).1, (extractDest args1).2⟩

/-- Split a character list at each slash, keeping empty components. -/
def splitSlash : List Char → List (List Char)
  | [] => [[]]
  | c :: rest =>
    if c = '/' then [] :: splitSlash rest
    else
      match splitSlash rest with
      | [] => [[c]]
      | g :: gs => (c :: g) :: gs

/-- Models `pathlib.PurePosixPath(p).name`: the last component of the path
after dropping empty components and `.` components; `""` when none remain. -/
def pathName (p : String) : String :=
  let comps := (splitSlash p.toList).map (fun cs => String.mk cs)
  ((comps.filter (fun s => !(s == "") && !(s == "."))).getLast?).getD ""

/-- Models `Path(p).absolute()`: pathlib prepends the process working
directory when the path is relative, and leaves absolute paths unchanged. -/
def absolutePath (cwd p : String) : String :=
  match p.toList with
  | '/' :: _ => p
  | _ => cwd ++ "/" ++ p

/-- One `subprocess.run` call: the argv vector and the working directory the
child runs in. `cargo_build.py` never passes `cwd=` to `subprocess.run`, so
every child inherits the caller's current working directory. -/
structure Cmd where
  argv : List String
  cwd : String
deriving Repr, DecidableEq

/-- Outcome of one run of the script: the subprocess commands issued, in
order, and the process exit code (0 on success; 1 when an uncaught Python
exception — `IndexError` from classification or `CalledProcessError` from
`check=True` — terminates the interpreter). -/
structure RunResult where
  trace : List Cmd
  exitCode : Nat
deriving Repr, DecidableEq

/-- The whole script `cargo_build.py` as a function of its raw arguments and
of its environment: `source_dir` (directory of the script itself, used to
locate `cargo.sh` by absolute path), `callerCwd` (the current working
directory the script is started from, inherited by every subprocess), and
the exit codes the two subprocesses would return (`buildExit`, `cpExit`).
Mirrors lines 37-48: run the build; on nonzero exit `check=True` raises and
the script dies; otherwise, when the destination token is a nonempty string
(`if out_path:`), resolve it to an absolute path, compute
`filename = filename or out_basename`, and run
`cp -a ./{binary_dir}/{filename} {out_path}`. -/
def cargoBuild (source_dir callerCwd : String) (buildExit cpExit : Nat)
    (args : List String) : RunResult :=
  match classify args with
  | none => ⟨[], 1⟩
  | some c =>
    let bcmd : Cmd := ⟨["sh", source_dir ++ "/cargo.sh", "build"] ++ c.passthrough, callerCwd⟩
    if buildExit ≠ 0 then ⟨[bcmd], 1⟩
    else
      match c.out_path with
      | none => ⟨[bcmd], 0⟩
      | some o =>
        if o = "" then ⟨[bcmd], 0⟩
        else
          let abs := absolutePath callerCwd o
          let fname :=
            match c.filename with
            | some f => if f = "" then pathName abs else f
            | none => pathName abs
          let ccmd : Cmd := ⟨["cp", "-a", "./" ++ c.binary_dir ++ "/" ++ fname, abs], callerCwd⟩
          if cpExit ≠ 0 then ⟨[bcmd, ccmd], 1⟩ else ⟨[bcmd, ccmd], 0⟩

/-! ### Lemmas about the classifier -/

/-- When `--rename` does not occur, `extractRename` is the identity. -/
theorem extractRename_of_not_mem {args : List String} (h : "--rename" ∉ args) :
    extractRename args = some (none, args) := by
  induction args with
  | nil => rfl
  | cons a rest ih =>
    have ha : a ≠ "--rename" := fun he => h (he ▸ List.mem_cons_self a rest)
    have hr : "--rename" ∉ rest := fun hm => h (List.mem_cons_of_mem a hm)
    simp [extractRename, ha, ih hr]

/-- When the first `--rename` is followed by a value `v`, `extractRename`
returns `v` and removes exactly the two tokens of the pair. -/
theorem extractRename_decomp {p : List String} (v : String) (s : List String)
    (hp : "--rename" ∉ p) :
    extractRename (p ++ "--rename" :: v :: s) = some (some v, p ++ s) := by
  induction p with
  | nil => simp [extractRename]
  | cons a rest ih =>
    have ha : a ≠ "--rename" := fun he => hp (he ▸ List.mem_cons_self a rest)
    have hr : "--rename" ∉ rest := fun hm => hp (List.mem_cons_of_mem a hm)
    simp [extractRename, ha, ih hr]

/-- When the first `--rename` is the last token, the second `pop` raises
`IndexError` and the script dies before any subprocess. -/
theorem extractRename_trailing {p : List String} (hp : "--rename" ∉ p) :
    extractRename (p ++ ["--rename"]) = none := by
  induction p with
  | nil => rfl
  | cons a rest ih =>
    have ha : a ≠ "--rename" := fun he => hp (he ▸ List.mem_cons_self a rest)
    have hr : "--rename" ∉ rest := fun hm => hp (List.mem_cons_of_mem a hm)
    simp [extractRename, ha, ih hr]

/-- A successful rename extraction removes exactly one `--rename` token and
one value token: the pair plus the leftover list is a permutation of the
input. -/
theorem extractRename_perm {args : List String} {v : String} {l : List String}
    (h : extractRename args = some (some v, l)) :
    ("--rename" :: v :: l).Perm args := by
  induction args generalizing l with
  | nil => simp [extractRename] at h
  | cons a rest ih =>
    by_cases ha : a = "--rename"
    · subst ha
      cases rest with
      | nil => simp [extractRename] at h
      | cons b t =>
        simp [extractRename] at h
        obtain ⟨hv, hl⟩ := h
        subst hv
        subst hl
        exact List.Perm.refl _
    · cases hR : extractRename rest with
      | none => simp [extractRename, ha, hR] at h
      | some fl =>
        obtain ⟨f, l'⟩ := fl
        simp [extractRename, ha, hR] at h
        obtain ⟨hf, hl⟩ := h
        subst hf
        subst hl
        have h1 : ("--rename" :: v :: a :: l').Perm ("--rename" :: a :: v :: l') :=
          List.Perm.cons _ (List.Perm.swap a v l')
        have h2 : ("--rename" :: a :: v :: l').Perm (a :: "--rename" :: v :: l') :=
          List.Perm.swap a "--rename" (v :: l')
        have h3 : (a :: "--rename" :: v :: l').Perm (a :: rest) :=
          List.Perm.cons a (ih hR)
        exact (h1.trans h2).trans h3

/-- A rename extraction that found no value leaves the list unchanged. -/
theorem extractRename_none_eq {args l : List String}
    (h : extractRename args = some (none, l)) : l = args := by
  induction args generalizing l with
  | nil =>
    simp [extractRename] at h
    exact h
  | cons a rest ih =>
    by_cases ha : a = "--rename"
    · subst ha
      cases rest with
      | nil => simp [extractRename] at h
      | cons b t => simp [extractRename] at h
    · cases hR : extractRename rest with
      | none => simp [extractRename, ha, hR] at h
      | some fl =>
        obtain ⟨f, l'⟩ := fl
        simp [extractRename, ha, hR] at h
        obtain ⟨hf, hl⟩ := h
        subst hf
        rw [← hl, ih hR]

/-- Every token of the input other than `--rename` either became the rename
value or survives rename extraction. -/
theorem extractRename_mem {args l : List String} {f : Option String}
    (h : extractRename args = some (f, l)) {x : String}
    (hx : x ∈ args) (hne : x ≠ "--rename") : f = some x ∨ x ∈ l := by
  induction args generalizing l f with
  | nil => cases hx
  | cons a rest ih =>
    by_cases ha : a = "--rename"
    · subst ha
      cases rest with
      | nil => simp [extractRename] at h
      | cons b t =>
        simp [extractRename] at h
        obtain ⟨hf, hl⟩ := h
        rcases List.mem_cons.mp hx with h1 | h2
        · exact absurd h1 hne
        · rcases List.mem_cons.mp h2 with h3 | h4
          · left
            rw [← hf, h3]
          · right
            rw [← hl]
            exact h4
    · cases hR : extractRename rest with
      | none => simp [extractRename, ha, hR] at h
      | some fl =>
        obtain ⟨f', l'⟩ := fl
        simp [extractRename, ha, hR] at h
        obtain ⟨hf, hl⟩ := h
        subst hf
        rcases List.mem_cons.mp hx with h1 | h2
        · right
          rw [← hl]
          exact h1 ▸ List.mem_cons_self a l'
        · rcases ih hR h2 with h3 | h4
          · left
            exact h3
          · right
            rw [← hl]
            exact List.mem_cons_of_mem a h4

/-- The destination token, when found, is a member of the working list and
does not start with `--`. -/
theorem firstNonFlag_mem {args : List String} {o : String}
    (h : firstNonFlag args = some o) : o ∈ args ∧ isFlag o = false := by
  unfold firstNonFlag at h
  cases hf : args.filter (fun a => !(isFlag a)) with
  | nil => rw [hf] at h; cases h
  | cons b t =>
    rw [hf] at h
    simp only [List.head?] at h
    have hb : b ∈ args.filter (fun a => !(isFlag a)) := by
      rw [hf]; exact List.mem_cons_self _ _
    have hm := List.mem_filter.mp hb
    cases h
    exact ⟨hm.1, by simpa using hm.2⟩

/-- Destination extraction when no non-flag token exists. -/
theorem extractDest_eq_none {args : List String} (h : firstNonFlag args = none) :
    extractDest args = (none, args) := by
  simp [extractDest, h]

/-- Destination extraction when a non-flag token exists: it is removed once. -/
theorem extractDest_eq_some {args : List String} {o : String}
    (h : firstNonFlag args = some o) :
    extractDest args = (some o, args.erase o) := by
  simp [extractDest, h]

/-- A successful destination extraction removes exactly one occurrence of
the destination token: destination plus leftovers permutes the input. -/
theorem extractDest_perm {args l : List String} {o : String}
    (h : extractDest args = (some o, l)) : (o :: l).Perm args := by
  unfold extractDest at h
  cases hf : firstNonFlag args with
  | none =>
    rw [hf] at h
    simp at h
  | some o' =>
    rw [hf] at h
    simp only [Prod.mk.injEq, Option.some.inj] at h
    obtain ⟨ho, hl⟩ := h
    cases ho
    rw [← hl]
    exact (List.perm_cons_erase (firstNonFlag_mem hf).1).symm

/-- A flag token is never removed by destination extraction. -/
theorem extractDest_mem_flag {args : List String} {x : String}
    (hx : x ∈ args) (hf : isFlag x = true) : x ∈ (extractDest args).2 := by
  unfold extractDest
  cases h : firstNonFlag args with
  | none => simpa using hx
  | some o =>
    simp only
    have ho := firstNonFlag_mem h
    have hxo : x ≠ o := by
      intro he
      rw [he, ho.2] at hf
      cases hf
    exact (List.mem_erase_of_ne hxo).mpr hx

/-- Destination extraction that found nothing leaves the list unchanged. -/
theorem extractDest_none_eq {args l : List String}
    (h : extractDest args = (none, l)) : l = args := by
  unfold extractDest at h
  cases hf : firstNonFlag args with
  | none =>
    rw [hf] at h
    simp at h
    exact h.symm
  | some o =>
    rw [hf] at h
    simp at h

/-- The leftover of destination extraction is a sub-multiset of its input. -/
theorem extractDest_snd_le (args : List String) :
    (((extractDest args).2 : List String) : Multiset String) ≤
      ((args : List String) : Multiset String) := by
  unfold extractDest
  cases h : firstNonFlag args with
  | none => simp
  | some o =>
    simp only
    rw [← Multiset.coe_erase]
    exact Multiset.erase_le _ _

/-- Characterisation of a successful classification in terms of the two
extraction passes. -/
theorem classify_eq {args : List String} {c : Classified} (h : classify args = some c) :
    ∃ f args1, extractRename args = some (f, args1) ∧
      c = ⟨if "--release" ∈ args then "release" else "debug", f,
           (extractDest args1).1, (extractDest args1).2⟩ := by
  unfold classify at h
  cases hR : extractRename args with
  | none => rw [hR] at h; cases h
  | some fl =>
    obtain ⟨f, args1⟩ := fl
    rw [hR] at h
    exact ⟨f, args1, rfl, (Option.some.inj h).symm⟩

/-! ### Claims -/

/-- C1, counterexample: the claim counts `--release` both among the consumed
tokens (whenever mode is Release) and among the pass-through tokens, but the
script leaves `--release` in the pass-through list without consuming it, so
on `["--release"]` the claimed union holds the token twice while the raw
list holds it once. -/
theorem c1_counterexample :
    classify ["--release"] = some ⟨"release", none, none, ["--release"]⟩ ∧
    ¬ ((["--release"] ++ ["--release"] : List String).Perm ["--release"]) := by
  refine ⟨by decide, ?_⟩
  intro hperm
  have hlen := hperm.length_eq
  simp at hlen

/-- C1 (amended): the multiset union of the rename pair (when present) and
the destination token (when present) with the pass-through tokens equals the
raw argument multiset; the release flag is not separately consumed — it
stays in the pass-through list. -/
theorem c1_token_conservation (args : List String) (c : Classified)
    (h : classify args = some c) :
    ((match c.filename with | some v => ["--rename", v] | none => []) ++
     (match c.out_path with | some o => [o] | none => []) ++
     c.passthrough).Perm args := by
  obtain ⟨f, args1, hR, hc⟩ := classify_eq h
  subst hc
  simp only
  cases hF : firstNonFlag args1 with
  | none =>
    rw [extractDest_eq_none hF]
    simp only
    cases f with
    | none =>
      rw [extractRename_none_eq hR]
      simp
    | some v =>
      have hpair := extractRename_perm hR
      simpa using hpair
  | some o =>
    rw [extractDest_eq_some hF]
    simp only
    have hcons : (o :: args1.erase o).Perm args1 :=
      (List.perm_cons_erase (firstNonFlag_mem hF).1).symm
    cases f with
    | none =>
      have heq := extractRename_none_eq hR
      subst heq
      simpa using hcons
    | some v =>
      have hpair := extractRename_perm hR
      have h1 : ("--rename" :: v :: (o :: args1.erase o) : List String).Perm
          ("--rename" :: v :: args1) :=
        List.Perm.cons _ (List.Perm.cons _ hcons)
      exact h1.trans hpair

theorem c1_token_conservation_witness :
    classify ["--release", "--rename", "app.bin", "/out/myapp"] =
      some ⟨"release", some "app.bin", some "/out/myapp", ["--release"]⟩ ∧
    (["--rename", "app.bin"] ++ ["/out/myapp"] ++ ["--release"]).Perm
      ["--release", "--rename", "app.bin", "/out/myapp"] := by
  refine ⟨by decide, ?_⟩
  exact c1_token_conservation ["--release", "--rename", "app.bin", "/out/myapp"]
    ⟨"release", some "app.bin", some "/out/myapp", ["--release"]⟩ (by decide)

/-- C2: when the build subprocess exits nonzero, `check=True` raises, the
wrapper exits nonzero, and no `cp` subprocess is ever started (the trace
holds no command whose program is `cp`, so the destination file is
untouched). -/
theorem c2_build_failure_no_copy (source_dir callerCwd : String)
    (buildExit cpExit : Nat) (args : List String) (c : Classified)
    (hc : classify args = some c) (hb : buildExit ≠ 0) :
    (cargoBuild source_dir callerCwd buildExit cpExit args).exitCode ≠ 0 ∧
    ∀ cmd ∈ (cargoBuild source_dir callerCwd buildExit cpExit args).trace,
      cmd.argv.head? ≠ some "cp" := by
  unfold cargoBuild
  rw [hc]
  constructor
  · simp [hb]
  · intro cmd hm
    simp [hb] at hm
    subst hm
    simp

theorem c2_build_failure_no_copy_witness :
    (cargoBuild "/opt/tool" "/work" 2 0 []).exitCode ≠ 0 ∧
    ∀ cmd ∈ (cargoBuild "/opt/tool" "/work" 2 0 []).trace,
      cmd.argv.head? ≠ some "cp" :=
  c2_build_failure_no_copy "/opt/tool" "/work" 2 0 []
    ⟨"debug", none, none, []⟩ (by decide) (by decide)

/-- C3, counterexample: `subprocess.run` is called without `cwd=`, so the
build runs in the caller's working directory, not in the tool's installation
directory: with installation directory `/opt/tool` and caller cwd `/work`,
the build command's working directory is `/work`. -/
theorem c3_counterexample :
    cargoBuild "/opt/tool" "/work" 0 0 [] =
      ⟨[⟨["sh", "/opt/tool/cargo.sh", "build"], "/work"⟩], 0⟩ ∧
    ("/work" : String) ≠ "/opt/tool" := by decide

/-- C3 (amended): the build script is located by the absolute path
`{source_dir}/cargo.sh`, but every subprocess (build and copy alike) runs in
the caller's current working directory, which is inherited — so the relative
artifact path `./{binary_dir}/{filename}` resolves against the caller's cwd
and behaviour does depend on where the tool is invoked from. -/
theorem c3_cwd_inherited (source_dir callerCwd : String) (buildExit cpExit : Nat)
    (args : List String) (c : Classified) (hc : classify args = some c) :
    (cargoBuild source_dir callerCwd buildExit cpExit args).trace.head? =
      some ⟨["sh", source_dir ++ "/cargo.sh", "build"] ++ c.passthrough, callerCwd⟩ ∧
    ∀ cmd ∈ (cargoBuild source_dir callerCwd buildExit cpExit args).trace,
      cmd.cwd = callerCwd := by
  unfold cargoBuild
  rw [hc]
  by_cases hb : buildExit = 0
  · cases ho : c.out_path with
    | none => simp [hb, ho]
    | some o =>
      by_cases he : o = ""
      · simp [hb, ho, he]
      · by_cases hcp : cpExit = 0
        · simp [hb, ho, he, hcp]
        · simp [hb, ho, he, hcp]
  · simp [hb]

theorem c3_cwd_inherited_witness :
    (cargoBuild "/opt/tool" "/work" 0 0 ["--target=x86_64"]).trace.head? =
      some ⟨["sh", "/opt/tool" ++ "/cargo.sh", "build"] ++ ["--target=x86_64"], "/work"⟩ ∧
    ∀ cmd ∈ (cargoBuild "/opt/tool" "/work" 0 0 ["--target=x86_64"]).trace,
      cmd.cwd = "/work" :=
  c3_cwd_inherited "/opt/tool" "/work" 0 0 ["--target=x86_64"]
    ⟨"debug", none, none, ["--target=x86_64"]⟩ (by decide)

/-- C4, counterexample: `-o` does not start with `--`, so the script consumes
it as the destination token; the pass-through list is `["--release", "foo"]`,
not `["--release", "-o", "foo"]` as the claim states. -/
theorem c4_counterexample :
    classify ["--release", "-o", "foo"] =
      some ⟨"release", none, some "-o", ["--release", "foo"]⟩ ∧
    (["--release", "foo"] : List String) ≠ ["--release", "-o", "foo"] := by decide

/-- C4 (amended): on `["--release", "-o", "foo"]` classification yields mode
Release, but `-o` (a single-dash token, hence not flag-prefixed for this
tool) is consumed as the destination, leaving `["--release", "foo"]` as the
pass-through arguments. -/
theorem c4_single_dash_destination :
    classify ["--release", "-o", "foo"] =
      some ⟨"release", none, some "-o", ["--release", "foo"]⟩ := by decide

/-- C5, counterexample: the release scan runs on the raw list before the
rename pair is removed, so when `--release` is the rename value the mode is
Release yet `--release` reaches neither the pass-through list nor the build:
on `["--rename", "--release"]` the pass-through list is empty. -/
theorem c5_counterexample :
    "--release" ∈ (["--rename", "--release"] : List String) ∧
    classify ["--rename", "--release"] =
      some ⟨"release", some "--release", none, []⟩ ∧
    "--release" ∉ ([] : List String) := by decide

/-- C5 (amended): mode is Release iff `--release` occurs in the raw argument
list; and when `--release` occurs, either it was consumed as the rename
value (`filename = some "--release"`) or it appears in the pass-through
arguments forwarded to the build. -/
theorem c5_release_flag (args : List String) (c : Classified)
    (h : classify args = some c) :
    (c.binary_dir = "release" ↔ "--release" ∈ args) ∧
    ("--release" ∈ args →
      c.filename = some "--release" ∨ "--release" ∈ c.passthrough) := by
  obtain ⟨f, args1, hR, hc⟩ := classify_eq h
  subst hc
  constructor
  · by_cases hm : "--release" ∈ args
    · simp [hm]
    · simp [hm]
  · intro hm
    have hflag : isFlag "--release" = true := by decide
    have hne : "--release" ≠ "--rename" := by decide
    rcases extractRename_mem hR hm hne with h1 | h2
    · left
      simpa using h1
    · right
      simpa using extractDest_mem_flag h2 hflag

theorem c5_release_flag_witness :
    (("release" : String) = "release" ↔ "--release" ∈ (["--release"] : List String)) ∧
    ("--release" ∈ (["--release"] : List String) →
      (none : Option String) = some "--release" ∨
      "--release" ∈ (["--release"] : List String)) :=
  c5_release_flag ["--release"] ⟨"release", none, none, ["--release"]⟩ (by decide)

/-- C6: when the first `--rename` is followed by a value, the rename value is
recorded, and the two tokens of the pair are consumed: the pass-through list
is computed from the list with the pair removed (and is a sub-multiset of
it), so neither the flag occurrence nor the value occurrence is forwarded. -/
theorem c6_rename_pair_removed (p s : List String) (v : String)
    (hp : "--rename" ∉ p) (c : Classified)
    (h : classify (p ++ "--rename" :: v :: s) = some c) :
    c.filename = some v ∧
    c.passthrough = (extractDest (p ++ s)).2 ∧
    ((c.passthrough : List String) : Multiset String) ≤
      ((p ++ s : List String) : Multiset String) := by
  obtain ⟨f, args1, hR, hc⟩ := classify_eq h
  rw [extractRename_decomp v s hp] at hR
  simp only [Option.some.injEq, Prod.mk.injEq] at hR
  obtain ⟨hf, ha⟩ := hR
  subst hc
  subst hf
  subst ha
  exact ⟨rfl, rfl, extractDest_snd_le (p ++ s)⟩

theorem c6_rename_pair_removed_witness :
    (some "name" : Option String) = some "name" ∧
    (["--x"] : List String) = (extractDest (["--x"] ++ ["dst"])).2 ∧
    (((["--x"] : List String) : List String) : Multiset String) ≤
      (((["--x"] ++ ["dst"] : List String) : List String) : Multiset String) :=
  c6_rename_pair_removed ["--x"] ["dst"] "name" (by decide)
    ⟨"debug", some "name", some "dst", ["--x"]⟩ (by decide)

/-- C7, counterexample: `filename = filename or out_basename` uses Python
truthiness, so an empty rename value (`--rename ""`) is discarded and the
basename of the destination is used instead: the copy source is
`./debug/app`, not `./debug/` as the claim ("filename is renamedArtifactName
if present") would require. -/
theorem c7_counterexample :
    classify ["--rename", "", "/out/app"] =
      some ⟨"debug", some "", some "/out/app", []⟩ ∧
    cargoBuild "/opt/tool" "/work" 0 0 ["--rename", "", "/out/app"] =
      ⟨[⟨["sh", "/opt/tool/cargo.sh", "build"], "/work"⟩,
        ⟨["cp", "-a", "./debug/app", "/out/app"], "/work"⟩], 0⟩ ∧
    ("./debug/app" : String) ≠ "./debug/" ++ "" := by decide

/-- C7 (amended): whenever a nonempty destination token is present and the
build succeeds, the copy source is `./{binary_dir}/{filename}` where
`binary_dir` is `debug` or `release` per mode and `filename` is the rename
value when present *and nonempty*, else the basename (`pathlib` name) of the
destination resolved against the caller's cwd. -/
theorem c7_copy_source (source_dir callerCwd : String) (cpExit : Nat)
    (args : List String) (c : Classified) (o : String)
    (hc : classify args = some c) (ho : c.out_path = some o) (hne : o ≠ "") :
    (cargoBuild source_dir callerCwd 0 cpExit args).trace =
      [⟨["sh", source_dir ++ "/cargo.sh", "build"] ++ c.passthrough, callerCwd⟩,
       ⟨["cp", "-a",
         "./" ++ c.binary_dir ++ "/" ++
           (match c.filename with
            | some f => if f = "" then pathName (absolutePath callerCwd o) else f
            | none => pathName (absolutePath callerCwd o)),
         absolutePath callerCwd o], callerCwd⟩] ∧
    (c.binary_dir = "debug" ∨ c.binary_dir = "release") := by
  constructor
  · unfold cargoBuild
    rw [hc]
    simp only
    rw [ho]
    cases hfn : c.filename with
    | none =>
      by_cases hcp : cpExit = 0
      · simp [hne, hcp]
      · simp [hne, hcp]
    | some f =>
      by_cases hcp : cpExit = 0
      · simp [hne, hcp]
      · simp [hne, hcp]
  · obtain ⟨f, args1, hR, hcc⟩ := classify_eq hc
    subst hcc
    by_cases hm : "--release" ∈ args
    · right
      simp [hm]
    · left
      simp [hm]

theorem c7_copy_source_witness :
    (cargoBuild "/opt/tool" "/work" 0 0
        ["--release", "--rename", "app.bin", "/out/myapp"]).trace =
      [⟨["sh", "/opt/tool" ++ "/cargo.sh", "build"] ++ ["--release"], "/work"⟩,
       ⟨["cp", "-a",
         "./" ++ "release" ++ "/" ++
           (match (some "app.bin" : Option String) with
            | some f => if f = "" then pathName (absolutePath "/work" "/out/myapp") else f
            | none => pathName (absolutePath "/work" "/out/myapp")),
         absolutePath "/work" "/out/myapp"], "/work"⟩] ∧
    (("release" : String) = "debug" ∨ ("release" : String) = "release") :=
  c7_copy_source "/opt/tool" "/work" 0
    ["--release", "--rename", "app.bin", "/out/myapp"]
    ⟨"release", some "app.bin", some "/out/myapp", ["--release"]⟩ "/out/myapp"
    (by decide) (by decide) (by decide)

/-- C8: when the (first) `--rename` flag is the last token, the second `pop`
raises `IndexError` before any `subprocess.run` call: classification fails,
the trace is empty, and the script exits nonzero. -/
theorem c8_trailing_rename (p : List String) (hp : "--rename" ∉ p)
    (source_dir callerCwd : String) (buildExit cpExit : Nat) :
    classify (p ++ ["--rename"]) = none ∧
    cargoBuild source_dir callerCwd buildExit cpExit (p ++ ["--rename"]) =
      ⟨[], 1⟩ := by
  have h1 : classify (p ++ ["--rename"]) = none := by
    unfold classify
    rw [extractRename_trailing hp]
  refine ⟨h1, ?_⟩
  unfold cargoBuild
  rw [h1]

theorem c8_trailing_rename_witness :
    classify ([] ++ ["--rename"]) = none ∧
    cargoBuild "/opt/tool" "/work" 0 0 ([] ++ ["--rename"]) = ⟨[], 1⟩ :=
  c8_trailing_rename [] (by decide) "/opt/tool" "/work" 0 0

/-- C9, counterexample: a rename value equal to `--release` does change the
mode, because the release scan (`'--release' in args`) runs on the raw list
before the rename pair is removed: on `["--rename", "--release"]` the mode
is Release, though the claim says the value's content cannot affect mode. -/
theorem c9_counterexample :
    classify ["--rename", "--release"] =
      some ⟨"release", some "--release", none, []⟩ ∧
    ("release" : String) ≠ "debug" := by decide

/-- C9 (amended): the rename value is removed before the destination scan,
so it is never taken as the destination — the destination is the first
non-flag token of the list with the rename pair removed; but the mode scan
runs on the raw list, so the value's content does participate in the
release-flag test. -/
theorem c9_rename_value_not_destination (p s : List String) (v : String)
    (hp : "--rename" ∉ p) (c : Classified)
    (h : classify (p ++ "--rename" :: v :: s) = some c) :
    c.out_path = firstNonFlag (p ++ s) ∧
    c.binary_dir =
      (if "--release" ∈ p ++ "--rename" :: v :: s then "release" else "debug") := by
  obtain ⟨f, args1, hR, hc⟩ := classify_eq h
  rw [extractRename_decomp v s hp] at hR
  simp only [Option.some.injEq, Prod.mk.injEq] at hR
  obtain ⟨hf, ha⟩ := hR
  subst hc
  subst ha
  refine ⟨?_, rfl⟩
  unfold extractDest
  cases hF : firstNonFlag (p ++ s) <;> simp [hF]

theorem c9_rename_value_not_destination_witness :
    (some "dst" : Option String) = firstNonFlag ([] ++ ["dst"]) ∧
    ("debug" : String) =
      (if "--release" ∈ [] ++ "--rename" :: "-x" :: ["dst"] then "release" else "debug") :=
  c9_rename_value_not_destination [] ["dst"] "-x" (by decide)
    ⟨"debug", some "-x", some "dst", []⟩ (by decide)

/-- C10: when the first non-flag token of the working list is the empty
string, it is consumed as the destination (removed from the pass-through
list), but the copy step is skipped — `if out_path:` is false for the empty
string — so only the build command runs and the script exits 0 on build
success. -/
theorem c10_empty_destination (args args1 : List String) (f : Option String)
    (source_dir callerCwd : String) (cpExit : Nat)
    (hR : extractRename args = some (f, args1))
    (hF : firstNonFlag args1 = some "") :
    classify args =
      some ⟨if "--release" ∈ args then "release" else "debug", f,
            some "", args1.erase ""⟩ ∧
    cargoBuild source_dir callerCwd 0 cpExit args =
      ⟨[⟨["sh", source_dir ++ "/cargo.sh", "build"] ++ args1.erase "", callerCwd⟩],
       0⟩ := by
  have hcls : classify args =
      some ⟨if "--release" ∈ args then "release" else "debug", f,
            some "", args1.erase ""⟩ := by
    unfold classify
    rw [hR]
    simp only
    rw [extractDest_eq_some hF]
  refine ⟨hcls, ?_⟩
  unfold cargoBuild
  rw [hcls]
  simp

theorem c10_empty_destination_witness :
    classify ["--x", "", "y"] =
      some ⟨if "--release" ∈ (["--x", "", "y"] : List String) then "release" else "debug",
            none, some "", (["--x", "", "y"] : List String).erase ""⟩ ∧
    cargoBuild "/opt/tool" "/work" 0 0 ["--x", "", "y"] =
      ⟨[⟨["sh", "/opt/tool" ++ "/cargo.sh", "build"] ++
          (["--x", "", "y"] : List String).erase "", "/work"⟩], 0⟩ :=
  c10_empty_destination ["--x", "", "y"] ["--x", "", "y"] none
    "/opt/tool" "/work" 0 (by decide) (by decide)

end CargoBuild
